import Mathlib

/-!
Shallow embedding of the PLY-tool interpreter (`src/combined.py`):
tokenizer (`t_*` rules, PLY longest-regex-first ordering), parser
(the yacc grammar `p_*`, with yacc's shift-preference), and the
tree-walking evaluator `Interpreter.evaluate_ast`.

Modelling choices:
* Python dynamic values are the inductive `Value`; Python `None` is
  `Value.noneV`.  Python floats are modelled as exact rationals
  (`Rat`); the claims under study never depend on rounding.
* The mutating interpreter state (`self.variables`, `self.output_buffer`)
  is threaded explicitly as `InterpState`; `raise` is an `Except` error
  carrying the state at the raise point.
* Evaluation termination is enforced by a fuel parameter that decreases
  on each nesting level and on each `while` re-entry (`Value`-level
  loops in the source do not consume fuel across iterations); fuel
  exhaustion is the distinguished error `RuntimeErr.outOfFuel`, which
  never occurs in any theorem below.
-/

namespace PlyInterp

/-- Python runtime values flowing through `evaluate_ast`:
int, float, bool, str, list, and `None`. -/
inductive Value where
  | int (n : Int)
  | float (q : Rat)
  | bool (b : Bool)
  | str (s : String)
  | list (vs : List Value)
  | noneV

/-- Python exceptions the interpreter raises (`NameError`, `TypeError`,
`ZeroDivisionError`), plus the fuel-exhaustion modelling artifact. -/
inductive RuntimeErr where
  | nameError (msg : String)
  | typeError (msg : String)
  | zeroDivisionError (msg : String)
  | outOfFuel
deriving DecidableEq

/-- Numeric value of a Python number; Python `bool` is an `int` subclass
(`True == 1`, `False == 0`). `none` for non-numeric values. -/
def Value.numVal : Value → Option Rat
  | .int n => some (n : Rat)
  | .float q => some q
  | .bool b => some (if b then 1 else 0)
  | _ => none

/-- Integral value of a Python number for contexts requiring an `int`
(`range` bounds, sequence repetition); Python `bool` counts. -/
def Value.intVal : Value → Option Int
  | .int n => some n
  | .bool b => some (if b then 1 else 0)
  | _ => none

/-- The value is of a Python numeric type (int, float or bool). -/
def Value.isNum : Value → Bool
  | .int _ => true
  | .float _ => true
  | .bool _ => true
  | _ => false

mutual
/-- Python `==` on the interpreter's value types: numbers compare by
numeric value (so `True == 1`), strings and lists structurally,
`None == None`, and values of unrelated types are unequal (no error). -/
def pyEq : Value → Value → Bool
  | .str a, .str b => a = b
  | .list a, .list b => pyEqList a b
  | .noneV, .noneV => true
  | l, r =>
    match l.numVal, r.numVal with
    | some x, some y => x = y
    | _, _ => false

/-- Elementwise Python `==` of two lists. -/
def pyEqList : List Value → List Value → Bool
  | [], [] => true
  | a :: as, b :: bs => pyEq a b && pyEqList as bs
  | _, _ => false
end

mutual
/-- Python `<`: numeric comparison across int/float/bool, lexicographic
on strings and lists; anything else raises `TypeError`. -/
def pyLt : Value → Value → Except RuntimeErr Bool
  | .str a, .str b => .ok (decide (a < b))
  | .list a, .list b => pyLtList a b
  | l, r =>
    match l.numVal, r.numVal with
    | some x, some y => .ok (decide (x < y))
    | _, _ => .error (.typeError "unsupported comparison between operand types")

/-- Python list `<`: skip equal prefixes, compare the first differing
elements, a strict prefix is smaller. -/
def pyLtList : List Value → List Value → Except RuntimeErr Bool
  | [], [] => .ok false
  | [], _ :: _ => .ok true
  | _ :: _, [] => .ok false
  | a :: as, b :: bs => if pyEq a b then pyLtList as bs else pyLt a b
end

mutual
/-- Python `<=`, implemented directly like `pyLt`. -/
def pyLe : Value → Value → Except RuntimeErr Bool
  | .str a, .str b => .ok (decide (a ≤ b))
  | .list a, .list b => pyLeList a b
  | l, r =>
    match l.numVal, r.numVal with
    | some x, some y => .ok (decide (x ≤ y))
    | _, _ => .error (.typeError "unsupported comparison between operand types")

/-- Python list `<=`. -/
def pyLeList : List Value → List Value → Except RuntimeErr Bool
  | [], _ => .ok true
  | _ :: _, [] => .ok false
  | a :: as, b :: bs => if pyEq a b then pyLeList as bs else pyLt a b
end

/-- Python `+`: int-preserving on integral operands, float otherwise for
numerics; string and list concatenation; else `TypeError`. -/
def pyAdd (l r : Value) : Except RuntimeErr Value :=
  match l, r with
  | .str a, .str b => .ok (.str (a ++ b))
  | .list a, .list b => .ok (.list (a ++ b))
  | _, _ =>
    match l.intVal, r.intVal with
    | some a, some b => .ok (.int (a + b))
    | _, _ =>
      match l.numVal, r.numVal with
      | some x, some y => .ok (.float (x + y))
      | _, _ => .error (.typeError "unsupported operand type(s) for +")

/-- Python `-` (numerics only). -/
def pySub (l r : Value) : Except RuntimeErr Value :=
  match l.intVal, r.intVal with
  | some a, some b => .ok (.int (a - b))
  | _, _ =>
    match l.numVal, r.numVal with
    | some x, some y => .ok (.float (x - y))
    | _, _ => .error (.typeError "unsupported operand type(s) for -")

/-- Python sequence repetition count: negative counts give the empty
sequence. -/
def repCount (n : Int) : Nat := n.toNat

/-- Python `*`: numeric product, plus string/list repetition by an
integral count (either operand order). -/
def pyMul (l r : Value) : Except RuntimeErr Value :=
  match l.intVal, r.intVal with
  | some a, some b => .ok (.int (a * b))
  | _, _ =>
    match l.numVal, r.numVal with
    | some x, some y => .ok (.float (x * y))
    | _, _ =>
      match l, r.intVal with
      | .str s, some n => .ok (.str (String.join (List.replicate (repCount n) s)))
      | .list vs, some n => .ok (.list (List.flatten (List.replicate (repCount n) vs)))
      | _, _ =>
        match l.intVal, r with
        | some n, .str s => .ok (.str (String.join (List.replicate (repCount n) s)))
        | some n, .list vs => .ok (.list (List.flatten (List.replicate (repCount n) vs)))
        | _, _ => .error (.typeError "unsupported operand type(s) for *")

/-- Python `/` after the interpreter's own zero check: true division,
always producing a float on numeric operands, `TypeError` otherwise. -/
def pyDiv (l r : Value) : Except RuntimeErr Value :=
  match l.numVal, r.numVal with
  | some x, some y => .ok (.float (x / y))
  | _, _ => .error (.typeError "unsupported operand type(s) for /")

mutual
/-- Python `repr` of a value (used by `str` on list elements): strings
are quoted, other values render as by `str`.  Escaping inside strings
and the exact float rendering are simplified; no claim depends on them. -/
def pyRepr : Value → String
  | .int n => Int.repr n
  | .float q => if q.den = 1 then Int.repr q.num ++ ".0"
                else Int.repr q.num ++ "/" ++ Nat.repr q.den
  | .bool b => if b then "True" else "False"
  | .str s => "'" ++ s ++ "'"
  | .list vs => "[" ++ pyReprList vs ++ "]"
  | .noneV => "None"

/-- Comma-joined `repr`s of list elements. -/
def pyReprList : List Value → String
  | [] => ""
  | [v] => pyRepr v
  | v :: rest => pyRepr v ++ ", " ++ pyReprList rest
end

/-- Python `str()` of a value: strings unchanged, else `repr`-style. -/
def pyStr : Value → String
  | .str s => s
  | v => pyRepr v

/-- Python truthiness of a value (`if`/`while` conditions). -/
def truthy : Value → Bool
  | .noneV => false
  | .bool b => b
  | .int n => decide (n ≠ 0)
  | .float q => decide (q ≠ 0)
  | .str s => decide (s ≠ "")
  | .list vs => !vs.isEmpty

/-- Python `range(s, e)` as the list `[s, s+1, …, e-1]` (empty when
`e ≤ s`), as iterated by the `ForNode` branch. -/
def pyRange (s e : Int) : List Int :=
  (List.range (e - s).toNat).map (fun i => s + i)


/-- AST node variants, one per `Node` subclass of the source.  An
`AssignmentNode`'s left child and a `FunctionCallNode`'s `func_name`
are `VariableNode`s of which only `.name` is ever read, so they are
stored as the name itself.  A `StringNode` stores its text with the
surrounding quotes already stripped (the constructor does `value[1:-1]`). -/
inductive Node where
  | block (statements : List Node)
  | binOp (left : Node) (op : String) (right : Node)
  | number (value : Value)
  | boolean (value : Bool)
  | strLit (value : String)
  | varNode (name : String)
  | assignment (target : String) (right : Node)
  | listNode (items : List Node)
  | ifNode (condition : Node) (ifBody : Node) (elseBody : Option Node)
  | forNode (iterator : String) (startE : Node) (stopE : Node) (body : Node)
  | whileNode (condition : Node) (body : Node)
  | printNode (expr : Node)
  | functionCall (funcName : String) (args : List Node)

/-- Interpreter state: `self.variables` (an insertion-ordered dict,
modelled as an association list, here the field `vars`) and
`self.output_buffer`. -/
structure InterpState where
  vars : List (String × Value)
  output_buffer : String

/-- Dict lookup: first (only) binding of the name. -/
def lookupVar : List (String × Value) → String → Option Value
  | [], _ => none
  | (k, v) :: rest, n => if k = n then some v else lookupVar rest n

/-- Dict assignment `d[n] = v`: overwrite in place, else append. -/
def setVar : List (String × Value) → String → Value → List (String × Value)
  | [], n, v => [(n, v)]
  | (k, w) :: rest, n, v =>
    if k = n then (k, v) :: rest else (k, w) :: setVar rest n v

/-- The registered built-in function table `self.built_in_functions`
(it maps the single name to `_builtin_str` below). -/
def built_in_functions : List String := ["str"]

/-- `Interpreter._builtin_str`: `TypeError` on an empty argument list,
else the textual form of the first argument. -/
def builtin_str (args : List Value) : Except RuntimeErr Value :=
  match args with
  | [] => .error (.typeError "str() takes at least 1 argument (0 given)")
  | a :: _ => .ok (.str (pyStr a))

/-- The `BinOpNode` dispatch of `evaluate_ast`: arithmetic, then the
`/`-with-zero-check branch, then the comparison table; an operator
outside the table falls through to the final `return None`. -/
def binOpApply (op : String) (l r : Value) : Except RuntimeErr Value :=
  if op = "+" then pyAdd l r
  else if op = "-" then pySub l r
  else if op = "*" then pyMul l r
  else if op = "/" then
    if pyEq r (.int 0) then .error (.zeroDivisionError "Division by zero.")
    else pyDiv l r
  else if op = "==" then .ok (.bool (pyEq l r))
  else if op = "!=" then .ok (.bool (!pyEq l r))
  else if op = "<" then (pyLt l r).map Value.bool
  else if op = ">" then (pyLt r l).map Value.bool
  else if op = "<=" then (pyLe l r).map Value.bool
  else if op = ">=" then (pyLe r l).map Value.bool
  else .ok .noneV

/-- Result of one evaluation: either the produced value with the state
after it, or the raised error with the state at the raise point. -/
abbrev EvalRes := Except (RuntimeErr × InterpState) (Value × InterpState)

/-- `Interpreter.evaluate_ast`, with explicit state and fuel.  Each
sub-evaluation runs at one fuel less; the per-statement, per-argument
and per-iteration folds inside one node reuse that same fuel, so fuel
bounds only the nesting depth and the number of `while` re-entries (a
`for` loop needs no fuel proportional to its range).  The source's
`for`-loops over `node.statements`, list items, call arguments, and
`range(start_val, end_val)` are the `foldlM`s, in the same order. -/
def evaluate_ast : Nat → Node → InterpState → EvalRes
  | 0, _, st => .error (.outOfFuel, st)
  | f + 1, node, st =>
    match node with
    | .block stmts =>
      match stmts.foldlM
          (fun st1 s =>
            match evaluate_ast f s st1 with
            | .error e => Except.error e
            | .ok q => Except.ok q.2) st with
      | .error e => .error e
      | .ok st1 => .ok (.noneV, st1)
    | .number v => .ok (v, st)
    | .boolean b => .ok (.bool b, st)
    | .strLit s => .ok (.str s, st)
    | .varNode n =>
      match lookupVar st.vars n with
      | none => .error (.nameError ("Name '" ++ n ++ "' is not defined."), st)
      | some v => .ok (v, st)
    | .binOp l op r =>
      match evaluate_ast f l st with
      | .error e => .error e
      | .ok (lv, st1) =>
        match evaluate_ast f r st1 with
        | .error e => .error e
        | .ok (rv, st2) =>
          match binOpApply op lv rv with
          | .error e => .error (e, st2)
          | .ok v => .ok (v, st2)
    | .listNode items =>
      match items.foldlM
          (fun p e =>
            match evaluate_ast f e p.2 with
            | .error err => Except.error err
            | .ok q => Except.ok (p.1 ++ [q.1], q.2))
          (([] : List Value), st) with
      | .error e => .error e
      | .ok p => .ok (.list p.1, p.2)
    | .assignment target rhs =>
      match evaluate_ast f rhs st with
      | .error e => .error e
      | .ok (v, st1) => .ok (v, { st1 with vars := setVar st1.vars target v })
    | .ifNode cond thenB elseB =>
      match evaluate_ast f cond st with
      | .error e => .error e
      | .ok (cv, st1) =>
        if truthy cv then
          match evaluate_ast f thenB st1 with
          | .error e => .error e
          | .ok (_, st2) => .ok (.noneV, st2)
        else
          match elseB with
          | some eb =>
            match evaluate_ast f eb st1 with
            | .error e => .error e
            | .ok (_, st2) => .ok (.noneV, st2)
          | none => .ok (.noneV, st1)
    | .forNode itName startE stopE body =>
      match evaluate_ast f startE st with
      | .error e => .error e
      | .ok (sv, st1) =>
        match evaluate_ast f stopE st1 with
        | .error e => .error e
        | .ok (ev, st2) =>
          match sv.intVal, ev.intVal with
          | some s, some e =>
            match (pyRange s e).foldlM
                (fun st3 i =>
                  match evaluate_ast f body
                      { st3 with vars := setVar st3.vars itName (.int i) } with
                  | .error e2 => Except.error e2
                  | .ok q => Except.ok q.2)
                st2 with
            | .error e2 => .error e2
            | .ok st3 => .ok (.noneV, st3)
          | _, _ => .error (.typeError "range() arguments must be integers", st2)
    | .whileNode cond body =>
      match evaluate_ast f cond st with
      | .error e => .error e
      | .ok (cv, st1) =>
        if truthy cv then
          match evaluate_ast f body st1 with
          | .error e => .error e
          | .ok (_, st2) => evaluate_ast f (.whileNode cond body) st2
        else .ok (.noneV, st1)
    | .printNode e =>
      match evaluate_ast f e st with
      | .error err => .error err
      | .ok (v, st1) =>
        .ok (.noneV, { st1 with output_buffer := st1.output_buffer ++ pyStr v ++ "\n" })
    | .functionCall fname args =>
      if fname ∈ built_in_functions then
        match args.foldlM
            (fun p e =>
              match evaluate_ast f e p.2 with
              | .error err => Except.error err
              | .ok q => Except.ok (p.1 ++ [q.1], q.2))
            (([] : List Value), st) with
        | .error e => .error e
        | .ok (vs, st1) =>
          match builtin_str vs with
          | .error e => .error (e, st1)
          | .ok v => .ok (v, st1)
      else .error (.nameError ("Function '" ++ fname ++ "' is not defined."), st)

/-! ### Tokens -/

/-- The token kinds of the lexer's `tokens` tuple. -/
inductive TokKind where
  | NUMBER | IDENTIFIER | STRING | TRUE | FALSE
  | PLUS | MINUS | TIMES | DIVIDE | ASSIGN
  | LPAREN | RPAREN | LBRACKET | RBRACKET | COMMA | COLON | SEMICOLON
  | FOR | WHILE | IN | RANGE | IF | ELSE | PRINT
  | EQUALS | NE | LT | GT | LE | GE
deriving DecidableEq

/-- A PLY token: kind, value (the matched text, except `t_NUMBER`'s
int/float and `TRUE`/`FALSE`'s bool), and line number. -/
structure Token where
  type : TokKind
  value : Value
  lineno : Nat

/-! ### Tokenizer

The PLY lexer tries, at each input position: the ignored characters
`' '` and `'\t'` (`t_ignore`), then the function rules in definition
order (`t_IDENTIFIER`, `t_NUMBER`, `t_STRING`, `t_newline`), then the
string rules sorted by decreasing regex length — so the two-character
comparison regexes `==`, `!=`, `<=`, `>=` come before the
single-character rules, among them `=`, `<` and `>`.  On no match,
`t_error` stores its message in the global `lex_error_message`
(overwriting any earlier one) and skips one character. -/

/-- First character of the `t_IDENTIFIER` regex `[a-zA-Z_][a-zA-Z0-9_]*`. -/
def isIdentStart (c : Char) : Bool := c.isAlpha || c = '_'

/-- Continuation characters of the `t_IDENTIFIER` regex. -/
def isIdentChar (c : Char) : Bool := c.isAlpha || c.isDigit || c = '_'

/-- The keyword reclassification table of `t_IDENTIFIER`. -/
def keywords : List (String × TokKind) :=
  [("for", .FOR), ("while", .WHILE), ("in", .IN), ("range", .RANGE),
   ("if", .IF), ("else", .ELSE), ("print", .PRINT),
   ("True", .TRUE), ("False", .FALSE)]

/-- Numeric value of an ASCII digit character. -/
def charDigitVal (c : Char) : Nat := c.toNat - 48

/-- Value of a decimal digit string, most significant digit first
(the `int(t.value)` of `t_NUMBER`). -/
def natOfDigits (cs : List Char) : Nat :=
  cs.foldl (fun a c => 10 * a + charDigitVal c) 0

/-- The `t_NUMBER` rule: match `\d+(\.\d+)?` greedily at the start of
`cs` (the head is known to be a digit) and build the token value —
`float` when the matched text has a decimal point, else `int`, exactly
as `float(t.value) if '.' in t.value else int(t.value)`.  Returns the
matched text, the value, and the rest of the input.  (Python `float`
rounds to binary; the model keeps the exact decimal rational.) -/
def scanNumber (cs : List Char) : List Char × Value × List Char :=
  let ds := cs.takeWhile Char.isDigit
  let rest := cs.dropWhile Char.isDigit
  match rest with
  | '.' :: c :: cs2 =>
    if c.isDigit then
      let fs := (c :: cs2).takeWhile Char.isDigit
      let rest2 := (c :: cs2).dropWhile Char.isDigit
      (ds ++ '.' :: fs,
       .float ((natOfDigits ds : Rat) + (natOfDigits fs : Rat) / (10 : Rat) ^ fs.length),
       rest2)
    else (ds, .int (natOfDigits ds), rest)
  | _ => (ds, .int (natOfDigits ds), rest)

/-- Body of the `t_STRING` regex `\"([^\\\n]|(\\.))*?\"` after the
opening quote: scan to the first unescaped closing quote; a bare
newline (escaped or not) or missing quote means the regex fails.
Returns the body (escapes kept verbatim, as PLY keeps the raw match)
and the input after the closing quote. -/
def scanStringBody : List Char → Option (List Char × List Char)
  | [] => none
  | '"' :: rest => some ([], rest)
  | '\\' :: c :: rest =>
    if c = '\n' then none
    else (scanStringBody rest).map (fun p => ('\\' :: c :: p.1, p.2))
  | '\n' :: _ => none
  | c :: rest => (scanStringBody rest).map (fun p => (c :: p.1, p.2))

/-- The single-character string rules (`t_PLUS` … `t_SEMICOLON`,
`t_ASSIGN`, `t_LT`, `t_GT`), reachable only after the two-character
rules failed to match. -/
def singleTok : Char → Option TokKind
  | '+' => some .PLUS
  | '-' => some .MINUS
  | '*' => some .TIMES
  | '/' => some .DIVIDE
  | '(' => some .LPAREN
  | ')' => some .RPAREN
  | '[' => some .LBRACKET
  | ']' => some .RBRACKET
  | ',' => some .COMMA
  | ':' => some .COLON
  | ';' => some .SEMICOLON
  | '=' => some .ASSIGN
  | '<' => some .LT
  | '>' => some .GT
  | _ => none

/-- The `t_error` message, with the offending character and line. -/
def illegalCharMsg (c : Char) (line : Nat) : String :=
  "Illegal character '" ++ String.mk [c] ++ "' at line " ++ Nat.repr line

/-- Prepend a token to a tokenization result. -/
def consTok (t : Token) (p : List Token × Option String) : List Token × Option String :=
  (t :: p.1, p.2)


theorem dropWhile_length_le (p : Char → Bool) (l : List Char) :
    (l.dropWhile p).length ≤ l.length := by
  induction l with
  | nil => simp [List.dropWhile]
  | cons c rest ih =>
    by_cases h : p c = true
    · rw [List.dropWhile_cons_of_pos h]; exact Nat.le_succ_of_le ih
    · rw [List.dropWhile_cons_of_neg (by simp [h])]

theorem scanStringBody_length {l b r : List Char}
    (h : scanStringBody l = some (b, r)) : r.length < l.length := by
  induction l using scanStringBody.induct generalizing b r with
  | case1 => simp [scanStringBody] at h
  | case2 rest =>
    simp only [scanStringBody] at h
    cases h
    simp
  | case3 rest => simp [scanStringBody] at h
  | case4 c rest hc ih =>
    simp only [scanStringBody, if_neg hc, Option.map_eq_some'] at h
    obtain ⟨⟨b1, r1⟩, hp, heq⟩ := h
    cases heq
    have := ih hp
    simp only [List.length_cons]
    omega
  | case5 rest => simp [scanStringBody] at h
  | case6 c rest h1 h2 h3 ih =>
    rw [scanStringBody] at h
    · simp only [Option.map_eq_some'] at h
      obtain ⟨⟨b1, r1⟩, hp, heq⟩ := h
      cases heq
      have := ih hp
      simp only [List.length_cons]
      omega
    · exact h1
    · exact h2
    · exact h3

theorem scanNumber_length {c : Char} (hc : c.isDigit = true) (rest : List Char) :
    ((scanNumber (c :: rest)).2.2).length < (c :: rest).length := by
  have h1 : (rest.dropWhile Char.isDigit).length ≤ rest.length := dropWhile_length_le _ _
  simp only [scanNumber, List.dropWhile_cons_of_pos hc]
  split
  case h_1 c2 cs2 heq =>
    have hlen : cs2.length + 2 ≤ rest.length := by
      have := congrArg List.length heq
      simp at this
      omega
    split
    case isTrue hdig =>
      have h2 : (cs2.dropWhile Char.isDigit).length ≤ cs2.length := dropWhile_length_le _ _
      simp only [List.dropWhile_cons_of_pos hdig, List.length_cons]
      omega
    case isFalse hdig =>
      simp only [heq, List.length_cons]
      omega
  case h_2 hne =>
    simp only [List.length_cons]
    omega

theorem isIdentStart_isIdentChar {c : Char} (h : isIdentStart c = true) :
    isIdentChar c = true := by
  simp only [isIdentStart, isIdentChar, Bool.or_eq_true] at h ⊢
  tauto

/-- One pass of the PLY lexer over the remaining input: the ignore set,
then the rule cascade in PLY's order, with `t_error` overwriting the
global `lex_error_message` (the `err` accumulator) and skipping one
character.  `t_newline` counts its matched newlines into `lineno`.
Fuel makes the recursion structural; every step consumes at least one
character, so the fuel `tokenize` supplies never runs out (the
fuel-irrelevance lemma below makes this precise) and the zero case is
unreachable there. -/
def tokenizeAux : Nat → List Char → Nat → Option String → List Token × Option String
  | _, [], _, err => ([], err)
  | 0, _ :: _, _, err => ([], err)
  | f + 1, c :: rest, line, err =>
    if c == ' ' || c == '\t' then tokenizeAux f rest line err
    else if isIdentStart c then
      let name := String.mk ((c :: rest).takeWhile isIdentChar)
      let tok : Token :=
        match keywords.lookup name with
        | some .TRUE => ⟨.TRUE, .bool true, line⟩
        | some .FALSE => ⟨.FALSE, .bool false, line⟩
        | some k => ⟨k, .str name, line⟩
        | none => ⟨.IDENTIFIER, .str name, line⟩
      consTok tok (tokenizeAux f ((c :: rest).dropWhile isIdentChar) line err)
    else if c.isDigit then
      consTok ⟨.NUMBER, (scanNumber (c :: rest)).2.1, line⟩
        (tokenizeAux f (scanNumber (c :: rest)).2.2 line err)
    else if c == '"' then
      match scanStringBody rest with
      | some (body, rest2) =>
        consTok ⟨.STRING, .str ("\"" ++ String.mk body ++ "\""), line⟩
          (tokenizeAux f rest2 line err)
      | none => tokenizeAux f rest line (some (illegalCharMsg c line))
    else if c == '\n' then
      tokenizeAux f ((c :: rest).dropWhile (fun x => x == '\n'))
        (line + ((c :: rest).takeWhile (fun x => x == '\n')).length) err
    else
      match c, rest with
      | '=', '=' :: rest2 => consTok ⟨.EQUALS, .str "==", line⟩ (tokenizeAux f rest2 line err)
      | '!', '=' :: rest2 => consTok ⟨.NE, .str "!=", line⟩ (tokenizeAux f rest2 line err)
      | '<', '=' :: rest2 => consTok ⟨.LE, .str "<=", line⟩ (tokenizeAux f rest2 line err)
      | '>', '=' :: rest2 => consTok ⟨.GE, .str ">=", line⟩ (tokenizeAux f rest2 line err)
      | c2, rest2 =>
        match singleTok c2 with
        | some k => consTok ⟨k, .str (String.mk [c2]), line⟩ (tokenizeAux f rest2 line err)
        | none => tokenizeAux f rest2 line (some (illegalCharMsg c2 line))

/-- The whole lexer run over a source string: PLY's `lexer.lineno`
starts at 1 and `lex_error_message` at `None`. -/
def tokenize (source : String) : List Token × Option String :=
  tokenizeAux (source.toList.length + 1) source.toList 1 none

/-! ### Parser

Recursive-descent embedding of the yacc grammar (`p_program` …
`p_arg_list`) with the declared precedence (`+ -` below `* /`, both
left-associative) and yacc's default shift preference: maximal-munch
expressions, and a `';'` after a loop or branch body extends the inner
`statement` (so `while c: s1; s2` puts `s2` inside the loop body).
The grammar is LALR-unambiguous on everything the claims touch; the
reduce-reduce tie between `assignment : IDENTIFIER ASSIGN TRUE` and
`factor : TRUE` (likewise `FALSE`/`STRING`) is resolved like yacc does:
the earlier `p_assignment` rule wins exactly when the literal is the
whole right-hand side, which the lookahead test below reproduces (both
routes build the same node).  Fuel bounds the recursion depth; the
runner passes fuel large enough that it is never exhausted on the
inputs considered. -/

/-- `StringNode.__init__` strips the quotes: `value[1:-1]`. -/
def stripQuotes (s : String) : String := String.mk (s.toList.drop 1 |>.dropLast)

/-- `p_statement`: a lone statement stays bare; a `;`-joined sequence
collapses into one `BlockNode`. -/
def mkStmt : List Node → Node
  | [s] => s
  | l => .block l

/-- The comparison token kinds of `p_comparison_op`. -/
def isCompKind : TokKind → Bool
  | .EQUALS => true
  | .NE => true
  | .LT => true
  | .GT => true
  | .LE => true
  | .GE => true
  | _ => false

/-- The next token starts a binary-arithmetic continuation (the
lookaheads under which yacc reduces `factor` rather than the
`assignment` literal rule). -/
def startsArith : List Token → Bool
  | ⟨.PLUS, _, _⟩ :: _ => true
  | ⟨.MINUS, _, _⟩ :: _ => true
  | ⟨.TIMES, _, _⟩ :: _ => true
  | ⟨.DIVIDE, _, _⟩ :: _ => true
  | _ => false

mutual
/-- `p_factor`: literals, variables, parenthesised expressions and
function calls; the token value is carried into the node unchanged
(`NumberNode(p[1])`, `StringNode(p[1])`, `VariableNode(p[1])`). -/
def parseFactor (fuel : Nat) (toks : List Token) : Option (Node × List Token) :=
  match fuel with
  | 0 => none
  | f + 1 =>
    match toks with
    | ⟨.NUMBER, v, _⟩ :: rest => some (.number v, rest)
    | ⟨.IDENTIFIER, .str name, _⟩ :: ⟨.LPAREN, _, _⟩ :: rest =>
      (match parseArgs f rest with
       | some (args, ⟨.RPAREN, _, _⟩ :: rest2) => some (.functionCall name args, rest2)
       | _ => none)
    | ⟨.IDENTIFIER, .str name, _⟩ :: rest => some (.varNode name, rest)
    | ⟨.LPAREN, _, _⟩ :: rest =>
      (match parseExpression f rest with
       | some (e, ⟨.RPAREN, _, _⟩ :: rest2) => some (e, rest2)
       | _ => none)
    | ⟨.TRUE, _, _⟩ :: rest => some (.boolean true, rest)
    | ⟨.FALSE, _, _⟩ :: rest => some (.boolean false, rest)
    | ⟨.STRING, .str s, _⟩ :: rest => some (.strLit (stripQuotes s), rest)
    | _ => none

/-- The `* /` precedence level of `p_expression`. -/
def parseTerm (fuel : Nat) (toks : List Token) : Option (Node × List Token) :=
  match fuel with
  | 0 => none
  | f + 1 =>
    match parseFactor f toks with
    | some (e, rest) => parseTermRest f e rest
    | none => none

/-- Left-associative chaining of `*` and `/` factors. -/
def parseTermRest (fuel : Nat) (acc : Node) (toks : List Token) :
    Option (Node × List Token) :=
  match fuel with
  | 0 => none
  | f + 1 =>
    match toks with
    | ⟨.TIMES, .str op, _⟩ :: rest =>
      (match parseFactor f rest with
       | some (rhs, rest2) => parseTermRest f (.binOp acc op rhs) rest2
       | none => none)
    | ⟨.DIVIDE, .str op, _⟩ :: rest =>
      (match parseFactor f rest with
       | some (rhs, rest2) => parseTermRest f (.binOp acc op rhs) rest2
       | none => none)
    | _ => some (acc, toks)

/-- The `+ -` precedence level of `p_expression`. -/
def parseExpression (fuel : Nat) (toks : List Token) : Option (Node × List Token) :=
  match fuel with
  | 0 => none
  | f + 1 =>
    match parseTerm f toks with
    | some (e, rest) => parseExprRest f e rest
    | none => none

/-- Left-associative chaining of `+` and `-` terms. -/
def parseExprRest (fuel : Nat) (acc : Node) (toks : List Token) :
    Option (Node × List Token) :=
  match fuel with
  | 0 => none
  | f + 1 =>
    match toks with
    | ⟨.PLUS, .str op, _⟩ :: rest =>
      (match parseTerm f rest with
       | some (rhs, rest2) => parseExprRest f (.binOp acc op rhs) rest2
       | none => none)
    | ⟨.MINUS, .str op, _⟩ :: rest =>
      (match parseTerm f rest with
       | some (rhs, rest2) => parseExprRest f (.binOp acc op rhs) rest2
       | none => none)
    | _ => some (acc, toks)

/-- `p_arg_list`: possibly empty comma-separated expressions, ended by
the caller's `RPAREN` (not consumed here). -/
def parseArgs (fuel : Nat) (toks : List Token) : Option (List Node × List Token) :=
  match fuel with
  | 0 => none
  | f + 1 =>
    match toks with
    | ⟨.RPAREN, _, _⟩ :: _ => some ([], toks)
    | _ =>
      match parseExpression f toks with
      | some (e, rest) => parseArgsRest f [e] rest
      | none => none

/-- Comma-continuation of `p_arg_list`. -/
def parseArgsRest (fuel : Nat) (acc : List Node) (toks : List Token) :
    Option (List Node × List Token) :=
  match fuel with
  | 0 => none
  | f + 1 =>
    match toks with
    | ⟨.COMMA, _, _⟩ :: rest =>
      (match parseExpression f rest with
       | some (e, rest2) => parseArgsRest f (acc ++ [e]) rest2
       | none => none)
    | _ => some (acc, toks)

/-- `p_item_list`: like `p_arg_list` but ended by `RBRACKET`. -/
def parseItems (fuel : Nat) (toks : List Token) : Option (List Node × List Token) :=
  match fuel with
  | 0 => none
  | f + 1 =>
    match toks with
    | ⟨.RBRACKET, _, _⟩ :: _ => some ([], toks)
    | _ =>
      match parseExpression f toks with
      | some (e, rest) => parseItemsRest f [e] rest
      | none => none

/-- Comma-continuation of `p_item_list`. -/
def parseItemsRest (fuel : Nat) (acc : List Node) (toks : List Token) :
    Option (List Node × List Token) :=
  match fuel with
  | 0 => none
  | f + 1 =>
    match toks with
    | ⟨.COMMA, _, _⟩ :: rest =>
      (match parseExpression f rest with
       | some (e, rest2) => parseItemsRest f (acc ++ [e]) rest2
       | none => none)
    | _ => some (acc, toks)

/-- `p_condition`: `expression comparison_op expression`; the operator
symbol in the node is the token's matched text (`p_comparison_op`
passes the value through). -/
def parseCondition (fuel : Nat) (toks : List Token) : Option (Node × List Token) :=
  match fuel with
  | 0 => none
  | f + 1 =>
    match parseExpression f toks with
    | some (e1, ⟨k, .str op, _⟩ :: rest) =>
      if isCompKind k then
        match parseExpression f rest with
        | some (e2, rest2) => some (.binOp e1 op e2, rest2)
        | none => none
      else none
    | _ => none

/-- The right-hand side of `p_assignment` after `IDENTIFIER ASSIGN`:
list literal, bare string/boolean literal, or expression. -/
def parseAssignRhs (fuel : Nat) (name : String) (toks : List Token) :
    Option (Node × List Token) :=
  match fuel with
  | 0 => none
  | f + 1 =>
    match toks with
    | ⟨.LBRACKET, _, _⟩ :: rest =>
      (match parseItems f rest with
       | some (items, ⟨.RBRACKET, _, _⟩ :: rest2) =>
         some (.assignment name (.listNode items), rest2)
       | _ => none)
    | ⟨.STRING, .str s, _⟩ :: rest =>
      if startsArith rest then
        match parseExpression f toks with
        | some (e, rest2) => some (.assignment name e, rest2)
        | none => none
      else some (.assignment name (.strLit (stripQuotes s)), rest)
    | ⟨.TRUE, _, _⟩ :: rest =>
      if startsArith rest then
        match parseExpression f toks with
        | some (e, rest2) => some (.assignment name e, rest2)
        | none => none
      else some (.assignment name (.boolean true), rest)
    | ⟨.FALSE, _, _⟩ :: rest =>
      if startsArith rest then
        match parseExpression f toks with
        | some (e, rest2) => some (.assignment name e, rest2)
        | none => none
      else some (.assignment name (.boolean false), rest)
    | _ =>
      match parseExpression f toks with
      | some (e, rest2) => some (.assignment name e, rest2)
      | none => none

/-- `p_single_statement`: dispatch on the leading token. -/
def parseSingleStatement (fuel : Nat) (toks : List Token) :
    Option (Node × List Token) :=
  match fuel with
  | 0 => none
  | f + 1 =>
    match toks with
    | ⟨.PRINT, _, _⟩ :: ⟨.LPAREN, _, _⟩ :: rest =>
      (match parseExpression f rest with
       | some (e, ⟨.RPAREN, _, _⟩ :: rest2) => some (.printNode e, rest2)
       | _ => none)
    | ⟨.IF, _, _⟩ :: rest =>
      (match parseCondition f rest with
       | some (cond, ⟨.COLON, _, _⟩ :: rest2) =>
         (match parseStatement f rest2 with
          | some (thenB, ⟨.ELSE, _, _⟩ :: ⟨.COLON, _, _⟩ :: rest3) =>
            (match parseStatement f rest3 with
             | some (elseB, rest4) => some (.ifNode cond thenB (some elseB), rest4)
             | none => none)
          | some (thenB, rest3) => some (.ifNode cond thenB none, rest3)
          | none => none)
       | _ => none)
    | ⟨.FOR, _, _⟩ :: ⟨.IDENTIFIER, .str it, _⟩ :: ⟨.IN, _, _⟩ :: ⟨.RANGE, _, _⟩ ::
        ⟨.LPAREN, _, _⟩ :: rest =>
      (match parseExpression f rest with
       | some (startE, ⟨.COMMA, _, _⟩ :: rest2) =>
         (match parseExpression f rest2 with
          | some (stopE, ⟨.RPAREN, _, _⟩ :: ⟨.COLON, _, _⟩ :: rest3) =>
            (match parseStatement f rest3 with
             | some (body, rest4) => some (.forNode it startE stopE body, rest4)
             | none => none)
          | _ => none)
       | _ => none)
    | ⟨.WHILE, _, _⟩ :: rest =>
      (match parseCondition f rest with
       | some (cond, ⟨.COLON, _, _⟩ :: rest2) =>
         (match parseStatement f rest2 with
          | some (body, rest3) => some (.whileNode cond body, rest3)
          | none => none)
       | _ => none)
    | ⟨.IDENTIFIER, .str name, _⟩ :: ⟨.ASSIGN, _, _⟩ :: rest => parseAssignRhs f name rest
    | _ =>
      match parseExpression f toks with
      | some (e, rest) => some (e, rest)
      | none => none

/-- `p_statement`: `single_statement (';' single_statement)*`, the
chain collapsed by `mkStmt`. -/
def parseStatement (fuel : Nat) (toks : List Token) : Option (Node × List Token) :=
  match fuel with
  | 0 => none
  | f + 1 =>
    match parseSingleStatement f toks with
    | some (s, rest) => parseStmtRest f [s] rest
    | none => none

/-- Semicolon continuation of `p_statement`. -/
def parseStmtRest (fuel : Nat) (acc : List Node) (toks : List Token) :
    Option (Node × List Token) :=
  match fuel with
  | 0 => none
  | f + 1 =>
    match toks with
    | ⟨.SEMICOLON, _, _⟩ :: rest =>
      (match parseSingleStatement f rest with
       | some (s, rest2) => parseStmtRest f (acc ++ [s]) rest2
       | none => none)
    | _ => some (mkStmt acc, toks)

/-- `p_program`: one or more juxtaposed statements collected into the
root `BlockNode`. -/
def parseProgramAux (fuel : Nat) (acc : List Node) (toks : List Token) : Option Node :=
  match fuel with
  | 0 => none
  | f + 1 =>
    match parseStatement f toks with
    | some (s, []) => some (.block (acc ++ [s]))
    | some (s, rest) => parseProgramAux f (acc ++ [s]) rest
    | none => none
end

/-- `parser.parse`: `none` models a syntax error (`p_error` fires, no
AST is produced).  An empty token stream is the end-of-file error. -/
def parseProgram (fuel : Nat) (toks : List Token) : Option Node :=
  match toks with
  | [] => none
  | _ => parseProgramAux fuel [] toks

/-- Outcome of one `parse_and_run` invocation. -/
inductive RunResult where
  | parseError
  | runtimeError (e : RuntimeErr) (st : InterpState)
  | finished (st : InterpState)

/-- The GUI's `parse_and_run` on one source text: tokenize, parse, then
evaluate from an empty environment and output buffer.  The GUI consults
`lex_error_message` immediately after `lexer.input(...)`, before any
token has been produced, so that check never fires and bad characters
are skipped silently; the parse-error check and the runtime-error
handler are modelled by `RunResult`.  The parser fuel is proportional
to the token count and provably sufficient on every input a theorem
below runs. -/
def run_program (fuel : Nat) (source : String) : RunResult :=
  match parseProgram (5 * (tokenize source).1.length + 10) (tokenize source).1 with
  | none => .parseError
  | some ast =>
    match evaluate_ast fuel ast ⟨[], ""⟩ with
    | .error (e, st) => .runtimeError e st
    | .ok (_, st) => .finished st

/-! ### Environment and evaluation helper lemmas -/

theorem lookupVar_setVar_self (env : List (String × Value)) (n : String) (v : Value) :
    lookupVar (setVar env n v) n = some v := by
  induction env with
  | nil => simp [setVar, lookupVar]
  | cons p rest ih =>
    obtain ⟨k, w⟩ := p
    by_cases h : k = n
    · simp [setVar, lookupVar, h]
    · simp [setVar, lookupVar, h, ih]

theorem binOpApply_div (l r : Value) :
    binOpApply "/" l r =
      if pyEq r (.int 0) then .error (.zeroDivisionError "Division by zero.")
      else pyDiv l r := rfl

/-! ### C1 -/

/-- C1: for numeric operand values l and r (the types `/` accepts),
the `BinOp` division branch raises `ZeroDivisionError` exactly when the
right operand's numeric value is zero, and otherwise returns the
float-tagged quotient even for two ints; and the program `1/0` stops
with `ZeroDivisionError` leaving the output buffer empty. -/
theorem c1_division_zero_and_float_quotient (l r : Value)
    (hl : l.isNum = true) (hr : r.isNum = true) :
    (binOpApply "/" l r = .error (.zeroDivisionError "Division by zero.") ↔
      r.numVal = some 0)
    ∧ (∀ x y : Rat, l.numVal = some x → r.numVal = some y → y ≠ 0 →
        binOpApply "/" l r = .ok (.float (x / y)))
    ∧ run_program 10 "1/0" =
        .runtimeError (.zeroDivisionError "Division by zero.") ⟨[], ""⟩ := by
  refine ⟨?_, ?_, by rfl⟩
  · rw [binOpApply_div]
    cases l <;> simp_all [Value.isNum] <;>
      cases r <;> simp_all [Value.isNum, pyEq, Value.numVal, pyDiv] <;>
      split <;> simp_all
  · intro x y hx hy hy0
    rw [binOpApply_div]
    cases l <;> simp_all [Value.isNum] <;>
      cases r <;> simp_all [Value.isNum, pyEq, Value.numVal, pyDiv] <;>
      split <;> simp_all

/-- Witness for C1 at concrete inputs: both hypotheses hold of the
integers 1 and 0, and the conclusion follows by the theorem itself. -/
theorem c1_witness :
    (Value.int 1).isNum = true ∧ (Value.int 0).isNum = true ∧
    ((binOpApply "/" (.int 1) (.int 0) =
        .error (.zeroDivisionError "Division by zero.") ↔
      (Value.int 0).numVal = some 0)
    ∧ (∀ x y : Rat, (Value.int 1).numVal = some x → (Value.int 0).numVal = some y →
        y ≠ 0 → binOpApply "/" (.int 1) (.int 0) = .ok (.float (x / y)))
    ∧ run_program 10 "1/0" =
        .runtimeError (.zeroDivisionError "Division by zero.") ⟨[], ""⟩) :=
  ⟨rfl, rfl, c1_division_zero_and_float_quotient (.int 1) (.int 0) rfl rfl⟩

theorem pyRange_eq_nil {s e : Int} (h : e ≤ s) : pyRange s e = [] := by
  simp [pyRange, Int.toNat_of_nonpos (by omega : e - s ≤ 0)]

/-! ### C3 -/

/-- C3: the source `while x > 8: print(str(x)); x = x - 1`, tokenized
and parsed, puts the semicolon-joined decrement inside the while body
(the explicit AST below), and evaluating it with `x` bound to 10
terminates with output buffer exactly `"10\n9\n"` and `x` bound to 8. -/
theorem c3_while_semicolon_body :
    (tokenize "while x > 8: print(str(x)); x = x - 1").2 = none
    ∧ parseProgram 100 (tokenize "while x > 8: print(str(x)); x = x - 1").1 =
        some (.block [.whileNode (.binOp (.varNode "x") ">" (.number (.int 8)))
          (.block [.printNode (.functionCall "str" [.varNode "x"]),
                   .assignment "x" (.binOp (.varNode "x") "-" (.number (.int 1)))])])
    ∧ evaluate_ast 20
        (.block [.whileNode (.binOp (.varNode "x") ">" (.number (.int 8)))
          (.block [.printNode (.functionCall "str" [.varNode "x"]),
                   .assignment "x" (.binOp (.varNode "x") "-" (.number (.int 1)))])])
        ⟨[("x", .int 10)], ""⟩ = .ok (.noneV, ⟨[("x", .int 8)], "10\n9\n"⟩) :=
  ⟨rfl, rfl, rfl⟩

/-! ### C5 -/

/-- C5: evaluating a `Variable` raises `NameError` exactly when the
name is unbound in the environment (returning the binding, with no
default, otherwise), and evaluating a `FunctionCall` whose name is not
in the built-in table raises `NameError` (before touching the
arguments). -/
theorem c5_nameerror_for_unbound_names (n : String) (st : InterpState) (fuel : Nat)
    (args : List Node) :
    (lookupVar st.vars n = none →
      evaluate_ast (fuel + 1) (.varNode n) st =
        .error (.nameError ("Name '" ++ n ++ "' is not defined."), st))
    ∧ (∀ v, lookupVar st.vars n = some v →
        evaluate_ast (fuel + 1) (.varNode n) st = .ok (v, st))
    ∧ (n ∉ built_in_functions →
        evaluate_ast (fuel + 1) (.functionCall n args) st =
          .error (.nameError ("Function '" ++ n ++ "' is not defined."), st)) := by
  refine ⟨?_, ?_, ?_⟩
  · intro h; simp [evaluate_ast, h]
  · intro v h; simp [evaluate_ast, h]
  · intro h; simp [evaluate_ast, h]

/-- Witness for C5: the name `foo`, unbound in the empty environment
and absent from the built-in table. -/
theorem c5_witness :
    evaluate_ast 1 (.varNode "foo") ⟨[], ""⟩ =
      .error (.nameError ("Name '" ++ "foo" ++ "' is not defined."), ⟨[], ""⟩)
    ∧ evaluate_ast 1 (.functionCall "foo" []) ⟨[], ""⟩ =
      .error (.nameError ("Function '" ++ "foo" ++ "' is not defined."), ⟨[], ""⟩) :=
  ⟨(c5_nameerror_for_unbound_names "foo" ⟨[], ""⟩ 0 []).1 rfl,
   (c5_nameerror_for_unbound_names "foo" ⟨[], ""⟩ 0 []).2.2 (by decide)⟩

/-! ### C6 -/

/-- C6: the stringify built-in takes one positional argument: with zero
arguments it raises `TypeError` (both directly and through a
`FunctionCall` evaluation), with one argument it returns the textual
form of that argument. -/
theorem c6_builtin_str_arity :
    builtin_str [] = .error (.typeError "str() takes at least 1 argument (0 given)")
    ∧ (∀ v, builtin_str [v] = .ok (.str (pyStr v)))
    ∧ (∀ st fuel, evaluate_ast (fuel + 2) (.functionCall "str" []) st =
        .error (.typeError "str() takes at least 1 argument (0 given)", st))
    ∧ (∀ st fuel n, evaluate_ast (fuel + 2) (.functionCall "str" [.number (.int n)]) st =
        .ok (.str (Int.repr n), st)) := by
  exact ⟨rfl, fun v => rfl, fun st fuel => rfl, fun st fuel n => rfl⟩

/-! ### C10 -/

/-- C10: a `For` node whose bounds evaluate to integers `s ≥ e` runs
its body zero times: evaluation returns `None` in exactly the state the
two bound evaluations left, so the loop neither binds the iterator nor
changes any binding — and with literal bounds the state is untouched. -/
theorem c10_empty_range_frame (fuel : Nat) (it : String) (startE stopE body : Node)
    (st st1 st2 : InterpState) (s e : Int)
    (h1 : evaluate_ast fuel startE st = .ok (.int s, st1))
    (h2 : evaluate_ast fuel stopE st1 = .ok (.int e, st2))
    (h : e ≤ s) :
    evaluate_ast (fuel + 1) (.forNode it startE stopE body) st = .ok (.noneV, st2)
    ∧ (∀ body2 st3, evaluate_ast (fuel + 1)
        (.forNode it (.number (.int s)) (.number (.int e)) body2) st3 =
          .ok (.noneV, st3)) := by
  have hf : 0 < fuel := by
    by_contra hc
    have : fuel = 0 := by omega
    subst this
    simp [evaluate_ast] at h1
  constructor
  · simp [evaluate_ast, h1, h2, Value.intVal, pyRange_eq_nil h, pure, Except.pure]
  · intro body2 st3
    obtain ⟨g, rfl⟩ : ∃ g, fuel = g + 1 := ⟨fuel - 1, by omega⟩
    simp [evaluate_ast, Value.intVal, pyRange_eq_nil h, pure, Except.pure]

/-- Witness for C10: literal bounds 3 and 2 over the empty state. -/
theorem c10_witness :
    evaluate_ast 2 (.forNode "i" (.number (.int 3)) (.number (.int 2))
        (.printNode (.varNode "i"))) ⟨[], ""⟩ = .ok (.noneV, ⟨[], ""⟩) :=
  (c10_empty_range_frame 1 "i" (.number (.int 3)) (.number (.int 2))
    (.printNode (.varNode "i")) ⟨[], ""⟩ ⟨[], ""⟩ ⟨[], ""⟩ 3 2 rfl rfl
    (by decide)).1

/-! ### C4 -/

mutual
/-- The value is one of C4's data shapes — int, float, bool, string, or
a (nested) list of such; everything except `None`. -/
def Value.isData : Value → Bool
  | .noneV => false
  | .list vs => isDataList vs
  | _ => true

/-- All list elements are data values. -/
def isDataList : List Value → Bool
  | [] => true
  | v :: rest => v.isData && isDataList rest
end

mutual
/-- Nesting depth of a value's literal: the evaluation fuel it needs. -/
def Value.litDepth : Value → Nat
  | .list vs => litDepthList vs + 1
  | _ => 1

/-- Largest literal depth in a list of values. -/
def litDepthList : List Value → Nat
  | [] => 0
  | v :: rest => max v.litDepth (litDepthList rest)
end

mutual
/-- The literal whose evaluation produces the given value: a
`NumberNode`, `BooleanNode`, `StringNode`, or `ListNode` of literals.
`None` has no literal form; its image here is arbitrary and excluded
by `Value.isData` wherever `litNode` is used. -/
def litNode : Value → Node
  | .int n => .number (.int n)
  | .float q => .number (.float q)
  | .bool b => .boolean b
  | .str s => .strLit s
  | .list vs => .listNode (litNodeList vs)
  | .noneV => .number (.int 0)

/-- Literals of a list of values. -/
def litNodeList : List Value → List Node
  | [] => []
  | v :: rest => litNode v :: litNodeList rest
end

mutual
/-- Evaluating the literal of a data value yields exactly that value
and leaves the state unchanged, given fuel at least its depth. -/
theorem evalLit (V : Value) (st : InterpState) (fuel : Nat)
    (hd : V.isData = true) (hf : V.litDepth ≤ fuel) :
    evaluate_ast fuel (litNode V) st = .ok (V, st) := by
  obtain ⟨g, rfl⟩ : ∃ g, fuel = g + 1 := by
    cases V <;> simp [Value.litDepth] at hf <;> exact ⟨fuel - 1, by omega⟩
  cases V with
  | int n => rfl
  | float q => rfl
  | bool b => rfl
  | str s => rfl
  | noneV => simp [Value.isData] at hd
  | list vs =>
    have hg : litDepthList vs ≤ g := by
      simp [Value.litDepth] at hf; omega
    have hfold := evalLitList vs st g [] (by simpa [Value.isData] using hd) hg
    simp only [litNode, evaluate_ast, hfold]
    simp

/-- Folding the evaluator over the literals of a list of data values
appends those values to the accumulator and keeps the state. -/
theorem evalLitList (vs : List Value) (st : InterpState) (fuel : Nat) (acc : List Value)
    (hd : isDataList vs = true) (hf : litDepthList vs ≤ fuel) :
    (litNodeList vs).foldlM
        (fun p e =>
          match evaluate_ast fuel e p.2 with
          | .error err => Except.error err
          | .ok q => Except.ok (p.1 ++ [q.1], q.2))
        (acc, st) = .ok (acc ++ vs, st) := by
  cases vs with
  | nil => simp [litNodeList, pure, Except.pure]
  | cons v rest =>
    simp only [isDataList, Bool.and_eq_true] at hd
    simp only [litDepthList] at hf
    have h1 := evalLit v st fuel hd.1 (by omega)
    have h2 := evalLitList rest st fuel (acc ++ [v]) hd.2 (by omega)
    have hap : acc ++ [v] ++ rest = acc ++ v :: rest := by simp
    simp only [litNodeList, List.foldlM_cons, h1]
    rw [← hap]
    exact h2
end

/-- C4: assigning any data value V (int, float, bool, string, or a
nested list of such) to a name binds V under that name in the
environment (overwriting any previous binding), returns V as the value
of the assignment, and a subsequent `Variable` evaluation of that name
returns exactly V. -/
theorem c4_assignment_roundtrip (x : String) (V : Value) (st : InterpState) (fuel : Nat)
    (hd : V.isData = true) (hf : V.litDepth < fuel) :
    evaluate_ast fuel (.assignment x (litNode V)) st =
      .ok (V, ⟨setVar st.vars x V, st.output_buffer⟩)
    ∧ lookupVar (setVar st.vars x V) x = some V
    ∧ evaluate_ast fuel (.varNode x) ⟨setVar st.vars x V, st.output_buffer⟩ =
        .ok (V, ⟨setVar st.vars x V, st.output_buffer⟩) := by
  obtain ⟨g, rfl⟩ : ∃ g, fuel = g + 1 := ⟨fuel - 1, by omega⟩
  refine ⟨?_, lookupVar_setVar_self _ _ _, ?_⟩
  · have := evalLit V st g hd (by omega)
    simp [evaluate_ast, this]
  · simp [evaluate_ast, lookupVar_setVar_self]

/-- Witness for C4: the nested-list value `[1, 'a', True]` assigned to
`y` over a state where `y` was previously bound to 0. -/
theorem c4_witness :
    (Value.list [.int 1, .str "a", .bool true]).isData = true
    ∧ (Value.list [.int 1, .str "a", .bool true]).litDepth < 5
    ∧ (evaluate_ast 5
        (.assignment "y" (litNode (.list [.int 1, .str "a", .bool true])))
        ⟨[("y", .int 0)], ""⟩ =
          .ok (.list [.int 1, .str "a", .bool true],
            ⟨setVar [("y", .int 0)] "y" (.list [.int 1, .str "a", .bool true]), ""⟩)
      ∧ lookupVar (setVar [("y", .int 0)] "y" (.list [.int 1, .str "a", .bool true])) "y" =
          some (.list [.int 1, .str "a", .bool true])
      ∧ evaluate_ast 5 (.varNode "y")
          ⟨setVar [("y", .int 0)] "y" (.list [.int 1, .str "a", .bool true]), ""⟩ =
          .ok (.list [.int 1, .str "a", .bool true],
            ⟨setVar [("y", .int 0)] "y" (.list [.int 1, .str "a", .bool true]), ""⟩)) :=
  ⟨rfl, by decide,
   c4_assignment_roundtrip "y" (.list [.int 1, .str "a", .bool true])
     ⟨[("y", .int 0)], ""⟩ 5 rfl (by decide)⟩

/-! ### C7 -/

/-- C7: the two-character comparison operators are recognized greedily
ahead of their one-character prefixes: wherever the remaining input
starts with `==`, `!=`, `<=` or `>=`, the lexer emits the single
two-character token and consumes both characters (so never `ASSIGN
ASSIGN`, `LT ASSIGN` or `GT ASSIGN`), and each two-character operator
alone tokenizes to exactly its one token. -/
theorem c7_two_char_operators_greedy :
    (∀ f rest line err,
      tokenizeAux (f + 1) ('=' :: '=' :: rest) line err =
        consTok ⟨.EQUALS, .str "==", line⟩ (tokenizeAux f rest line err)
      ∧ tokenizeAux (f + 1) ('!' :: '=' :: rest) line err =
        consTok ⟨.NE, .str "!=", line⟩ (tokenizeAux f rest line err)
      ∧ tokenizeAux (f + 1) ('<' :: '=' :: rest) line err =
        consTok ⟨.LE, .str "<=", line⟩ (tokenizeAux f rest line err)
      ∧ tokenizeAux (f + 1) ('>' :: '=' :: rest) line err =
        consTok ⟨.GE, .str ">=", line⟩ (tokenizeAux f rest line err))
    ∧ tokenize "==" = ([⟨.EQUALS, .str "==", 1⟩], none)
    ∧ tokenize "!=" = ([⟨.NE, .str "!=", 1⟩], none)
    ∧ tokenize "<=" = ([⟨.LE, .str "<=", 1⟩], none)
    ∧ tokenize ">=" = ([⟨.GE, .str ">=", 1⟩], none) :=
  ⟨fun f rest line err => ⟨rfl, rfl, rfl, rfl⟩, rfl, rfl, rfl, rfl⟩

/-! ### C9 -/

/-- A character at which no lexer rule can match: not ignored, not the
start of an identifier, number, string or newline run, not `!` (which
can begin `!=`), and not a single-character token (`=`, `<`, `>` are
single-character tokens, so they always match). -/
def badChar (c : Char) : Bool :=
  !(c == ' ' || c == '\t' || isIdentStart c || c.isDigit || c == '"' || c == '\n'
    || c == '!' || (singleTok c).isSome)

/-- C9 counterexample: the source `$@` has two unrecognized characters,
but the code's `t_error` stores its diagnostic in the single global
`lex_error_message`, so the run ends indistinguishable from tokenizing
`@` alone: the diagnostic for `$` is lost, contradicting the claim that
every such diagnostic is recorded. -/
theorem c9_counterexample_overwritten_diagnostic :
    tokenize "$@" = ([], some "Illegal character '@' at line 1")
    ∧ tokenize "@" = ([], some "Illegal character '@' at line 1") :=
  ⟨rfl, rfl⟩

/-- C9 (amended): at an unrecognized character the tokenizer records a
diagnostic naming that character and the current line, skips it, and
continues tokenizing — but the diagnostic overwrites any earlier one,
so only the last bad character's diagnostic survives (as the concrete
run `a$@b` shows: both identifiers are tokenized, one message remains). -/
theorem c9_lexer_skips_and_records_last (c : Char) (rest : List Char) (f line : Nat)
    (err : Option String) (h : badChar c = true) :
    tokenizeAux (f + 1) (c :: rest) line err =
      tokenizeAux f rest line (some (illegalCharMsg c line))
    ∧ tokenize "a$@b" =
      ([⟨.IDENTIFIER, .str "a", 1⟩, ⟨.IDENTIFIER, .str "b", 1⟩],
       some "Illegal character '@' at line 1") := by
  simp only [badChar, Bool.or_eq_true, Bool.not_eq_true', Bool.or_eq_false_iff] at h
  obtain ⟨⟨⟨⟨⟨⟨⟨h1, h2⟩, h3⟩, h4⟩, h5⟩, h6⟩, h7⟩, h8⟩ := h
  refine ⟨?_, rfl⟩
  rw [tokenizeAux]
  simp only [h1, h2, h3, h4, h5, h6, Bool.or_self, Bool.false_eq_true, if_false,
    Bool.or_false, Bool.false_or]
  case _ =>
    cases hs : singleTok c with
    | none => simp
    | some k => rw [hs] at h8; simp at h8
  all_goals intro r2 hc hr
  all_goals first
    | (subst hc; simp [singleTok] at h8; done)
    | (subst hc; simp at h7; done)

/-- Witness for C9 (amended) at the bad character `$` followed by `@`. -/
theorem c9_witness :
    badChar '$' = true
    ∧ (tokenizeAux 3 ['$', '@'] 1 none = tokenizeAux 2 ['@'] 1 (some (illegalCharMsg '$' 1))
       ∧ tokenize "a$@b" =
          ([⟨.IDENTIFIER, .str "a", 1⟩, ⟨.IDENTIFIER, .str "b", 1⟩],
           some "Illegal character '@' at line 1")) :=
  ⟨rfl, c9_lexer_skips_and_records_last '$' ['@'] 2 1 none rfl⟩

/-! ### Number scanning lemmas and C8 -/

theorem takeWhile_append_all {p : Char → Bool} {l1 : List Char} (l2 : List Char)
    (h : ∀ c ∈ l1, p c = true) :
    (l1 ++ l2).takeWhile p = l1 ++ l2.takeWhile p := by
  induction l1 with
  | nil => simp
  | cons c rest ih =>
    have hc : p c = true := h c (by simp)
    simp only [List.cons_append, List.takeWhile_cons_of_pos hc, List.cons_inj_right]
    exact ih (fun x hx => h x (by simp [hx]))

theorem dropWhile_append_all {p : Char → Bool} {l1 : List Char} (l2 : List Char)
    (h : ∀ c ∈ l1, p c = true) :
    (l1 ++ l2).dropWhile p = l2.dropWhile p := by
  induction l1 with
  | nil => simp
  | cons c rest ih =>
    have hc : p c = true := h c (by simp)
    simp only [List.cons_append, List.dropWhile_cons_of_pos hc]
    exact ih (fun x hx => h x (by simp [hx]))

/-- Scanning a maximal digit run not followed by a fractional part
produces the int-tagged token value of those digits. -/
theorem scanNumber_int (d1 rest : List Char) (hd1 : ∀ c ∈ d1, c.isDigit = true)
    (hr : ∀ c cs, rest = c :: cs → c.isDigit = false ∧ c ≠ '.') :
    scanNumber (d1 ++ rest) = (d1, .int (natOfDigits d1), rest) := by
  have ht : (d1 ++ rest).takeWhile Char.isDigit = d1 := by
    rw [takeWhile_append_all rest hd1]
    cases rest with
    | nil => simp
    | cons c cs =>
      rw [List.takeWhile_cons_of_neg (by simp [(hr c cs rfl).1])]
      simp
  have hd : (d1 ++ rest).dropWhile Char.isDigit = rest := by
    rw [dropWhile_append_all rest hd1]
    cases rest with
    | nil => simp
    | cons c cs => rw [List.dropWhile_cons_of_neg (by simp [(hr c cs rfl).1])]
  simp only [scanNumber, ht, hd]
  cases rest with
  | nil => rfl
  | cons c cs =>
    obtain ⟨hcd, hcdot⟩ := hr c cs rfl
    cases cs with
    | nil =>
      split
      · rename_i c2 cs2 heq
        cases heq
      · rfl
    | cons c2 cs2 =>
      split
      · rename_i c3 cs3 heq
        injection heq with e1 e2
        exact absurd e1 hcdot
      · rfl

/-- Scanning digits, a dot, and a second maximal digit run produces the
float-tagged exact decimal value of the matched text. -/
theorem scanNumber_float (d1 d2 rest : List Char)
    (hd1 : ∀ c ∈ d1, c.isDigit = true)
    (h2 : d2 ≠ []) (hd2 : ∀ c ∈ d2, c.isDigit = true)
    (hr : ∀ c cs, rest = c :: cs → c.isDigit = false) :
    scanNumber (d1 ++ '.' :: (d2 ++ rest)) =
      (d1 ++ '.' :: d2,
       .float ((natOfDigits d1 : Rat) + (natOfDigits d2 : Rat) / (10 : Rat) ^ d2.length),
       rest) := by
  obtain ⟨c2, d2t, rfl⟩ : ∃ c2 d2t, d2 = c2 :: d2t := by
    cases d2 with
    | nil => exact absurd rfl h2
    | cons a b => exact ⟨a, b, rfl⟩
  have hc2 : c2.isDigit = true := hd2 c2 (by simp)
  have hdot : ('.' : Char).isDigit = false := by decide
  have ht : (d1 ++ '.' :: (c2 :: d2t ++ rest)).takeWhile Char.isDigit = d1 := by
    rw [takeWhile_append_all _ hd1, List.takeWhile_cons_of_neg (by simp [hdot])]
    simp
  have hd : (d1 ++ '.' :: (c2 :: d2t ++ rest)).dropWhile Char.isDigit =
      '.' :: (c2 :: d2t ++ rest) := by
    rw [dropWhile_append_all _ hd1, List.dropWhile_cons_of_neg (by simp [hdot])]
  have htf : (c2 :: d2t ++ rest).takeWhile Char.isDigit = c2 :: d2t := by
    rw [show (c2 :: d2t ++ rest : List Char) = (c2 :: d2t) ++ rest by simp,
      takeWhile_append_all _ hd2]
    cases rest with
    | nil => simp
    | cons c cs =>
      rw [List.takeWhile_cons_of_neg (by simp [hr c cs rfl])]
      simp
  have hdf : (c2 :: d2t ++ rest).dropWhile Char.isDigit = rest := by
    rw [show (c2 :: d2t ++ rest : List Char) = (c2 :: d2t) ++ rest by simp,
      dropWhile_append_all _ hd2]
    cases rest with
    | nil => simp
    | cons c cs => rw [List.dropWhile_cons_of_neg (by simp [hr c cs rfl])]
  simp only [scanNumber, ht, hd]
  rw [show (match ('.' :: (c2 :: d2t ++ rest) : List Char) with
    | '.' :: c :: cs2 =>
      if c.isDigit = true then
        (d1 ++ '.' :: List.takeWhile Char.isDigit (c :: cs2),
          Value.float
            ((natOfDigits d1 : Rat) +
              (natOfDigits (List.takeWhile Char.isDigit (c :: cs2)) : Rat) /
                (10 : Rat) ^ (List.takeWhile Char.isDigit (c :: cs2)).length),
          List.dropWhile Char.isDigit (c :: cs2))
      else (d1, Value.int (natOfDigits d1 : Int), '.' :: (c2 :: d2t ++ rest))
    | x => (d1, Value.int (natOfDigits d1 : Int), '.' :: (c2 :: d2t ++ rest))) =
      if c2.isDigit = true then
        (d1 ++ '.' :: List.takeWhile Char.isDigit (c2 :: d2t ++ rest),
          Value.float
            ((natOfDigits d1 : Rat) +
              (natOfDigits (List.takeWhile Char.isDigit (c2 :: d2t ++ rest)) : Rat) /
                (10 : Rat) ^ (List.takeWhile Char.isDigit (c2 :: d2t ++ rest)).length),
          List.dropWhile Char.isDigit (c2 :: d2t ++ rest))
      else (d1, Value.int (natOfDigits d1 : Int), '.' :: (c2 :: d2t ++ rest)) from rfl]
  rw [if_pos hc2, htf, hdf]

/-- C8: a numeric literal's token value is int-tagged exactly when the
matched text has no decimal point: a maximal digit run yields
`int`, digits-dot-digits yields the `float` of the text (which does
contain the dot), and evaluating the resulting `Number` leaf returns
its tagged value unchanged. -/
theorem c8_number_tag_preserved (d1 d2 rest : List Char) (v : Value)
    (st : InterpState) (fuel : Nat)
    (hd1 : ∀ c ∈ d1, c.isDigit = true)
    (h2 : d2 ≠ []) (hd2 : ∀ c ∈ d2, c.isDigit = true)
    (hr : ∀ c cs, rest = c :: cs → c.isDigit = false ∧ c ≠ '.') :
    scanNumber (d1 ++ rest) = (d1, .int (natOfDigits d1), rest)
    ∧ '.' ∉ d1
    ∧ scanNumber (d1 ++ '.' :: (d2 ++ rest)) =
        (d1 ++ '.' :: d2,
         .float ((natOfDigits d1 : Rat) + (natOfDigits d2 : Rat) / (10 : Rat) ^ d2.length),
         rest)
    ∧ '.' ∈ d1 ++ '.' :: d2
    ∧ evaluate_ast (fuel + 1) (.number v) st = .ok (v, st) := by
  refine ⟨scanNumber_int d1 rest hd1 hr, ?_,
    scanNumber_float d1 d2 rest hd1 h2 hd2 (fun c cs hc => (hr c cs hc).1), by simp, rfl⟩
  intro hmem
  have := hd1 '.' hmem
  simp at this

/-- Witness for C8: the literals `42` and `42.5`, followed by `)`. -/
theorem c8_witness :
    (∀ c ∈ ['4', '2'], c.isDigit = true)
    ∧ (['5'] : List Char) ≠ []
    ∧ (∀ c ∈ ['5'], c.isDigit = true)
    ∧ (∀ c cs, ([')'] : List Char) = c :: cs → c.isDigit = false ∧ c ≠ '.')
    ∧ (scanNumber (['4', '2'] ++ [')']) = (['4', '2'], .int (natOfDigits ['4', '2']), [')'])
      ∧ '.' ∉ ['4', '2']
      ∧ scanNumber (['4', '2'] ++ '.' :: (['5'] ++ [')'])) =
          (['4', '2'] ++ '.' :: ['5'],
           .float ((natOfDigits ['4', '2'] : Rat) +
             (natOfDigits ['5'] : Rat) / (10 : Rat) ^ (['5'] : List Char).length),
           [')'])
      ∧ '.' ∈ ['4', '2'] ++ '.' :: ['5']
      ∧ evaluate_ast 1 (.number (.int 42)) ⟨[], ""⟩ = .ok (.int 42, ⟨[], ""⟩)) :=
  ⟨by decide, by decide, by decide,
   fun c cs h => by cases h; exact ⟨by decide, by decide⟩,
   c8_number_tag_preserved ['4', '2'] ['5'] [')'] (.int 42) ⟨[], ""⟩ 0
     (by decide) (by decide) (by decide)
     (fun c cs h => by cases h; exact ⟨by decide, by decide⟩)⟩

/-! ### Decimal rendering of naturals (for C2's program texts) -/

/-- The decimal digit characters of a natural number, most significant
first (the canonical base-10 rendering). -/
def decimalChars (n : Nat) : List Char :=
  if n = 0 then ['0']
  else (Nat.digits 10 n).reverse.map (fun d => Char.ofNat (48 + d))

/-- The decimal numeral of a natural number as a string. -/
def decimal (n : Nat) : String := String.mk (decimalChars n)

theorem charOfNat_isDigit {d : Nat} (h : d < 10) :
    (Char.ofNat (48 + d)).isDigit = true := by
  interval_cases d <;> decide

theorem charDigitVal_ofNat {d : Nat} (h : d < 10) :
    charDigitVal (Char.ofNat (48 + d)) = d := by
  interval_cases d <;> decide

theorem decimalChars_digits (n : Nat) : ∀ c ∈ decimalChars n, c.isDigit = true := by
  intro c hc
  unfold decimalChars at hc
  split at hc
  · simp at hc
    subst hc
    decide
  · simp only [List.mem_map, List.mem_reverse] at hc
    obtain ⟨d, hd, rfl⟩ := hc
    exact charOfNat_isDigit (Nat.digits_lt_base (by norm_num) hd)

theorem decimalChars_ne_nil (n : Nat) : decimalChars n ≠ [] := by
  unfold decimalChars
  split
  · simp
  · simp only [ne_eq, List.map_eq_nil_iff, List.reverse_eq_nil_iff]
    exact Nat.digits_ne_nil_iff_ne_zero.mpr (by assumption)

theorem foldl_reverse_ofDigits (l : List Nat) (a : Nat) :
    l.reverse.foldl (fun acc d => 10 * acc + d) a =
      a * 10 ^ l.length + Nat.ofDigits 10 l := by
  induction l generalizing a with
  | nil => simp
  | cons d t ih =>
    simp only [List.reverse_cons, List.foldl_append, ih, List.foldl_cons, List.foldl_nil,
      List.length_cons, Nat.ofDigits_cons]
    ring

/-- Scanning the decimal numeral of `n` recovers `n`. -/
theorem natOfDigits_decimalChars (n : Nat) : natOfDigits (decimalChars n) = n := by
  unfold decimalChars
  split
  · rename_i h
    subst h
    rfl
  · rw [natOfDigits, List.foldl_map]
    have hpt : ∀ (acc : Nat), ∀ d ∈ (Nat.digits 10 n).reverse,
        10 * acc + charDigitVal (Char.ofNat (48 + d)) = 10 * acc + d := by
      intro acc d hd
      rw [charDigitVal_ofNat (Nat.digits_lt_base (by norm_num) (List.mem_reverse.mp hd))]
    calc (Nat.digits 10 n).reverse.foldl
          (fun acc d => 10 * acc + charDigitVal (Char.ofNat (48 + d))) 0
        = (Nat.digits 10 n).reverse.foldl (fun acc d => 10 * acc + d) 0 := by
          apply List.foldl_ext
          intro acc d hd
          exact hpt acc d hd
      _ = 0 * 10 ^ (Nat.digits 10 n).length + Nat.ofDigits 10 (Nat.digits 10 n) :=
          foldl_reverse_ofDigits _ _
      _ = n := by
          rw [Nat.ofDigits_digits]
          ring

/-- Tokenization does not depend on the fuel once the fuel exceeds the
input length: every step consumes at least one character and one fuel. -/
theorem tokenizeAux_fuel_irrel :
    ∀ (n : Nat) (input : List Char), input.length ≤ n →
    ∀ (f1 f2 line : Nat) (err : Option String), input.length < f1 → input.length < f2 →
    tokenizeAux f1 input line err = tokenizeAux f2 input line err := by
  intro n
  induction n with
  | zero =>
    intro input hlen f1 f2 line err h1 h2
    have hnil : input = [] := List.eq_nil_of_length_eq_zero (by omega)
    subst hnil
    cases f1 <;> cases f2 <;> rfl
  | succ m ih =>
    intro input hlen f1 f2 line err h1 h2
    cases input with
    | nil => cases f1 <;> cases f2 <;> rfl
    | cons c rest =>
      simp only [List.length_cons] at hlen h1 h2
      obtain ⟨g1, rfl⟩ : ∃ g, f1 = g + 1 := ⟨f1 - 1, by omega⟩
      obtain ⟨g2, rfl⟩ : ∃ g, f2 = g + 1 := ⟨f2 - 1, by omega⟩
      have hrest : ∀ (r : List Char), r.length ≤ rest.length →
          ∀ l e, tokenizeAux g1 r l e = tokenizeAux g2 r l e := by
        intro r hr l e
        exact ih r (by omega) g1 g2 l e (by omega) (by omega)
      simp only [tokenizeAux]
      by_cases hsp : (c == ' ' || c == '\t') = true
      · simp only [hsp, if_true]
        exact hrest rest (by omega) line err
      simp only [hsp, Bool.false_eq_true, if_false]
      by_cases hid : isIdentStart c = true
      · simp only [hid, if_true, consTok]
        rw [hrest ((c :: rest).dropWhile isIdentChar) ?hle line err]
        case hle =>
          rw [List.dropWhile_cons_of_pos (isIdentStart_isIdentChar hid)]
          exact dropWhile_length_le _ _
      simp only [hid, Bool.false_eq_true, if_false]
      by_cases hdg : c.isDigit = true
      · simp only [hdg, if_true, consTok]
        rw [hrest ((scanNumber (c :: rest)).2.2) ?hle2 line err]
        case hle2 =>
          have := scanNumber_length hdg rest
          simp only [List.length_cons] at this
          omega
      simp only [hdg, Bool.false_eq_true, if_false]
      by_cases hq : (c == '"') = true
      · simp only [hq, if_true]
        cases hs : scanStringBody rest with
        | some p =>
          obtain ⟨body, rest2⟩ := p
          simp only [consTok]
          rw [hrest rest2 (by have := scanStringBody_length hs; omega) line err]
        | none =>
          exact hrest rest (by omega) line _
      simp only [hq, Bool.false_eq_true, if_false]
      by_cases hnl : (c == '\n') = true
      · simp only [hnl, if_true]
        rw [hrest ((c :: rest).dropWhile (fun x => x == '\n')) ?hle3 _ err]
        case hle3 =>
          have hdw : List.dropWhile (fun x => x == '\n') (c :: rest)
              = List.dropWhile (fun x => x == '\n') rest :=
            List.dropWhile_cons_of_pos hnl
          rw [hdw]
          exact dropWhile_length_le _ _
      simp only [hnl, Bool.false_eq_true, if_false]
      split
      · simp only [consTok]; rw [hrest _ (by simp) line err]
      · simp only [consTok]; rw [hrest _ (by simp) line err]
      · simp only [consTok]; rw [hrest _ (by simp) line err]
      · simp only [consTok]; rw [hrest _ (by simp) line err]
      · cases hsg : singleTok c with
        | some k =>
          simp only [consTok]
          rw [hrest rest (by omega) line err]
        | none => exact hrest rest (by omega) line _

/-! ### C2: the for-range program -/

/-- The program text of C2, with the loop bounds rendered in decimal. -/
def progFor (a b : Nat) : String :=
  "for i in range(" ++ decimal a ++ "," ++ decimal b ++ "): print(i)"

/-- The token stream of `progFor a b`. -/
def forToks (a b : Nat) : List Token :=
  [⟨.FOR, .str "for", 1⟩, ⟨.IDENTIFIER, .str "i", 1⟩, ⟨.IN, .str "in", 1⟩,
   ⟨.RANGE, .str "range", 1⟩, ⟨.LPAREN, .str "(", 1⟩, ⟨.NUMBER, .int (a : Int), 1⟩,
   ⟨.COMMA, .str ",", 1⟩, ⟨.NUMBER, .int (b : Int), 1⟩, ⟨.RPAREN, .str ")", 1⟩,
   ⟨.COLON, .str ":", 1⟩, ⟨.PRINT, .str "print", 1⟩, ⟨.LPAREN, .str "(", 1⟩,
   ⟨.IDENTIFIER, .str "i", 1⟩, ⟨.RPAREN, .str ")", 1⟩]

/-- Tokenization at the canonical, always-sufficient fuel. -/
def tokNorm (input : List Char) (line : Nat) (err : Option String) :
    List Token × Option String :=
  tokenizeAux (input.length + 1) input line err

theorem tokNorm_norm (f : Nat) (input : List Char) (line : Nat) (err : Option String)
    (h : input.length < f) :
    tokenizeAux f input line err = tokNorm input line err :=
  tokenizeAux_fuel_irrel input.length input le_rfl f (input.length + 1) line err h
    (by omega)

theorem digit_char_facts {c : Char} (h : c.isDigit = true) :
    (c == ' ') = false ∧ (c == '\t') = false ∧ isIdentStart c = false
    ∧ (c == '"') = false ∧ (c == '\n') = false := by
  simp only [Char.isDigit, Bool.and_eq_true, decide_eq_true_eq] at h
  obtain ⟨h1, h2⟩ := h
  refine ⟨?_, ?_, ?_, ?_, ?_⟩
  case _ =>
    cases hb : (c == ' ') with
    | false => rfl
    | true =>
      have hc : c = ' ' := by simpa using hb
      subst hc
      simp at h1
  case _ =>
    cases hb : (c == '\t') with
    | false => rfl
    | true =>
      have hc : c = '\t' := by simpa using hb
      subst hc
      simp at h1
  case _ =>
    have hup : c.isUpper = false := by
      cases hb : c.isUpper with
      | false => rfl
      | true =>
        simp only [Char.isUpper, Bool.and_eq_true, decide_eq_true_eq] at hb
        exact absurd (UInt32.le_trans hb.1 h2) (by decide)
    have hlo : c.isLower = false := by
      cases hb : c.isLower with
      | false => rfl
      | true =>
        simp only [Char.isLower, Bool.and_eq_true, decide_eq_true_eq] at hb
        exact absurd (UInt32.le_trans hb.1 h2) (by decide)
    have hus : (c == '_') = false := by
      cases hb : (c == '_') with
      | false => rfl
      | true =>
        have hc : c = '_' := by simpa using hb
        subst hc
        simp at h2
    simp [isIdentStart, Char.isAlpha, hup, hlo]
    simpa using hus
  case _ =>
    cases hb : (c == '"') with
    | false => rfl
    | true =>
      have hc : c = '"' := by simpa using hb
      subst hc
      simp at h1
  case _ =>
    cases hb : (c == '\n') with
    | false => rfl
    | true =>
      have hc : c = '\n' := by simpa using hb
      subst hc
      simp at h1

/-- One lexer step at a maximal digit run followed by a non-number
character: a single int-valued `NUMBER` token. -/
theorem tok_step_number (f line : Nat) (err : Option String) (d rest : List Char)
    (hne : d ≠ []) (hd : ∀ c ∈ d, c.isDigit = true)
    (hr : ∀ c cs, rest = c :: cs → c.isDigit = false ∧ c ≠ '.') :
    tokenizeAux (f + 1) (d ++ rest) line err =
      consTok ⟨.NUMBER, .int (natOfDigits d), line⟩ (tokenizeAux f rest line err) := by
  obtain ⟨c0, dt, rfl⟩ : ∃ c0 dt, d = c0 :: dt := by
    cases d with
    | nil => exact absurd rfl hne
    | cons x y => exact ⟨x, y, rfl⟩
  have hc0 : c0.isDigit = true := hd c0 (by simp)
  obtain ⟨f1, f2, f3, f4, f5⟩ := digit_char_facts hc0
  have hsn := scanNumber_int (c0 :: dt) rest hd hr
  simp only [List.cons_append] at hsn
  simp only [List.cons_append, tokenizeAux, f1, f2, f3, f4, f5, hc0, Bool.or_self,
    Bool.false_eq_true, if_false, if_true, List.append_eq, hsn]



/-- One-step lexer equations on the concrete token shapes of the C2
program, generic in the fuel and the remaining input. -/
theorem tokStepFor (f line : Nat) (err : Option String) (r : List Char) :
    tokenizeAux (f + 1) ('f':: 'o':: 'r':: ' '::r) line err =
      consTok ⟨.FOR, .str "for", line⟩ (tokenizeAux f (' '::r) line err) := rfl

theorem tokStepSpace (f line : Nat) (err : Option String) (r : List Char) :
    tokenizeAux (f + 1) (' '::r) line err = tokenizeAux f r line err := rfl

theorem tokStepIdentI (f line : Nat) (err : Option String) (r : List Char) :
    tokenizeAux (f + 1) ('i':: ' '::r) line err =
      consTok ⟨.IDENTIFIER, .str "i", line⟩ (tokenizeAux f (' '::r) line err) := rfl

theorem tokStepIn (f line : Nat) (err : Option String) (r : List Char) :
    tokenizeAux (f + 1) ('i':: 'n':: ' '::r) line err =
      consTok ⟨.IN, .str "in", line⟩ (tokenizeAux f (' '::r) line err) := rfl

theorem tokStepRange (f line : Nat) (err : Option String) (r : List Char) :
    tokenizeAux (f + 1) ('r':: 'a':: 'n':: 'g':: 'e':: '('::r) line err =
      consTok ⟨.RANGE, .str "range", line⟩ (tokenizeAux f ('('::r) line err) := rfl

theorem tokStepLParen (f line : Nat) (err : Option String) (r : List Char) :
    tokenizeAux (f + 1) ('('::r) line err =
      consTok ⟨.LPAREN, .str "(", line⟩ (tokenizeAux f r line err) := rfl

theorem tokStepComma (f line : Nat) (err : Option String) (r : List Char) :
    tokenizeAux (f + 1) (','::r) line err =
      consTok ⟨.COMMA, .str ",", line⟩ (tokenizeAux f r line err) := rfl

/-- Tokenizing the C2 program yields its fixed fourteen-token stream,
with no lexer diagnostic, for every pair of naturals. -/
theorem tokenize_progFor (a b : Nat) :
    tokenize (progFor a b) = (forToks a b, none) := by
  have hTail : tokNorm ([')', ':', ' ', 'p', 'r', 'i', 'n', 't', '(', 'i', ')']) 1 none =
      ([⟨.RPAREN, .str ")", 1⟩, ⟨.COLON, .str ":", 1⟩, ⟨.PRINT, .str "print", 1⟩,
        ⟨.LPAREN, .str "(", 1⟩, ⟨.IDENTIFIER, .str "i", 1⟩, ⟨.RPAREN, .str ")", 1⟩],
       none) := rfl
  have hl : (progFor a b).toList =
      'f':: 'o':: 'r':: ' ':: 'i':: ' ':: 'i':: 'n':: ' ':: 'r':: 'a':: 'n':: 'g':: 'e':: '(' :: (decimalChars a ++ (',' :: (decimalChars b ++ [')', ':', ' ', 'p', 'r', 'i', 'n', 't', '(', 'i', ')']))) := by
    simp only [progFor, decimal, String.toList, String.data_append, List.append_assoc]
    rfl
  show tokNorm ((progFor a b).toList) 1 none = (forToks a b, none)
  rw [hl]
  simp only [tokNorm]
  rw [tokStepFor]
  rw [tokNorm_norm (('f':: 'o':: 'r':: ' ':: 'i':: ' ':: 'i':: 'n':: ' ':: 'r':: 'a':: 'n':: 'g':: 'e':: '(' :: (decimalChars a ++ (',' :: (decimalChars b ++ [')', ':', ' ', 'p', 'r', 'i', 'n', 't', '(', 'i', ')'])))).length) (' ':: 'i':: ' ':: 'i':: 'n':: ' ':: 'r':: 'a':: 'n':: 'g':: 'e':: '(' :: (decimalChars a ++ (',' :: (decimalChars b ++ [')', ':', ' ', 'p', 'r', 'i', 'n', 't', '(', 'i', ')'])))) 1 none (by simp [List.length_append, List.length_pos, decimalChars_ne_nil])]
  simp only [tokNorm]
  rw [tokStepSpace]
  rw [tokNorm_norm ((' ':: 'i':: ' ':: 'i':: 'n':: ' ':: 'r':: 'a':: 'n':: 'g':: 'e':: '(' :: (decimalChars a ++ (',' :: (decimalChars b ++ [')', ':', ' ', 'p', 'r', 'i', 'n', 't', '(', 'i', ')'])))).length) ('i':: ' ':: 'i':: 'n':: ' ':: 'r':: 'a':: 'n':: 'g':: 'e':: '(' :: (decimalChars a ++ (',' :: (decimalChars b ++ [')', ':', ' ', 'p', 'r', 'i', 'n', 't', '(', 'i', ')'])))) 1 none (by simp [List.length_append, List.length_pos, decimalChars_ne_nil])]
  simp only [tokNorm]
  rw [tokStepIdentI]
  rw [tokNorm_norm (('i':: ' ':: 'i':: 'n':: ' ':: 'r':: 'a':: 'n':: 'g':: 'e':: '(' :: (decimalChars a ++ (',' :: (decimalChars b ++ [')', ':', ' ', 'p', 'r', 'i', 'n', 't', '(', 'i', ')'])))).length) (' ':: 'i':: 'n':: ' ':: 'r':: 'a':: 'n':: 'g':: 'e':: '(' :: (decimalChars a ++ (',' :: (decimalChars b ++ [')', ':', ' ', 'p', 'r', 'i', 'n', 't', '(', 'i', ')'])))) 1 none (by simp [List.length_append, List.length_pos, decimalChars_ne_nil])]
  simp only [tokNorm]
  rw [tokStepSpace]
  rw [tokNorm_norm ((' ':: 'i':: 'n':: ' ':: 'r':: 'a':: 'n':: 'g':: 'e':: '(' :: (decimalChars a ++ (',' :: (decimalChars b ++ [')', ':', ' ', 'p', 'r', 'i', 'n', 't', '(', 'i', ')'])))).length) ('i':: 'n':: ' ':: 'r':: 'a':: 'n':: 'g':: 'e':: '(' :: (decimalChars a ++ (',' :: (decimalChars b ++ [')', ':', ' ', 'p', 'r', 'i', 'n', 't', '(', 'i', ')'])))) 1 none (by simp [List.length_append, List.length_pos, decimalChars_ne_nil])]
  simp only [tokNorm]
  rw [tokStepIn]
  rw [tokNorm_norm (('i':: 'n':: ' ':: 'r':: 'a':: 'n':: 'g':: 'e':: '(' :: (decimalChars a ++ (',' :: (decimalChars b ++ [')', ':', ' ', 'p', 'r', 'i', 'n', 't', '(', 'i', ')'])))).length) (' ':: 'r':: 'a':: 'n':: 'g':: 'e':: '(' :: (decimalChars a ++ (',' :: (decimalChars b ++ [')', ':', ' ', 'p', 'r', 'i', 'n', 't', '(', 'i', ')'])))) 1 none (by simp [List.length_append, List.length_pos, decimalChars_ne_nil])]
  simp only [tokNorm]
  rw [tokStepSpace]
  rw [tokNorm_norm ((' ':: 'r':: 'a':: 'n':: 'g':: 'e':: '(' :: (decimalChars a ++ (',' :: (decimalChars b ++ [')', ':', ' ', 'p', 'r', 'i', 'n', 't', '(', 'i', ')'])))).length) ('r':: 'a':: 'n':: 'g':: 'e':: '(' :: (decimalChars a ++ (',' :: (decimalChars b ++ [')', ':', ' ', 'p', 'r', 'i', 'n', 't', '(', 'i', ')'])))) 1 none (by simp [List.length_append, List.length_pos, decimalChars_ne_nil])]
  simp only [tokNorm]
  rw [tokStepRange]
  rw [tokNorm_norm (('r':: 'a':: 'n':: 'g':: 'e':: '(' :: (decimalChars a ++ (',' :: (decimalChars b ++ [')', ':', ' ', 'p', 'r', 'i', 'n', 't', '(', 'i', ')'])))).length) ('(' :: (decimalChars a ++ (',' :: (decimalChars b ++ [')', ':', ' ', 'p', 'r', 'i', 'n', 't', '(', 'i', ')'])))) 1 none (by simp [List.length_append, List.length_pos, decimalChars_ne_nil])]
  simp only [tokNorm]
  rw [tokStepLParen]
  rw [tokNorm_norm (('(' :: (decimalChars a ++ (',' :: (decimalChars b ++ [')', ':', ' ', 'p', 'r', 'i', 'n', 't', '(', 'i', ')'])))).length) ((decimalChars a ++ (',' :: (decimalChars b ++ [')', ':', ' ', 'p', 'r', 'i', 'n', 't', '(', 'i', ')'])))) 1 none (by simp [List.length_append, List.length_pos, decimalChars_ne_nil])]
  simp only [tokNorm]
  rw [tok_step_number (((decimalChars a ++ (',' :: (decimalChars b ++ [')', ':', ' ', 'p', 'r', 'i', 'n', 't', '(', 'i', ')'])))).length) 1 none (decimalChars a) (',' :: (decimalChars b ++ [')', ':', ' ', 'p', 'r', 'i', 'n', 't', '(', 'i', ')']))
    (decimalChars_ne_nil a) (decimalChars_digits a)
    (fun c cs h => by cases h; exact ⟨by decide, by decide⟩)]
  rw [natOfDigits_decimalChars]
  rw [tokNorm_norm (((decimalChars a ++ (',' :: (decimalChars b ++ [')', ':', ' ', 'p', 'r', 'i', 'n', 't', '(', 'i', ')'])))).length) (',' :: (decimalChars b ++ [')', ':', ' ', 'p', 'r', 'i', 'n', 't', '(', 'i', ')'])) 1 none (by simp [List.length_append, List.length_pos, decimalChars_ne_nil])]
  simp only [tokNorm]
  rw [tokStepComma]
  rw [tokNorm_norm ((',' :: (decimalChars b ++ [')', ':', ' ', 'p', 'r', 'i', 'n', 't', '(', 'i', ')'])).length) (decimalChars b ++ [')', ':', ' ', 'p', 'r', 'i', 'n', 't', '(', 'i', ')']) 1 none (by simp [List.length_append, List.length_pos, decimalChars_ne_nil])]
  simp only [tokNorm]
  rw [tok_step_number ((decimalChars b ++ [')', ':', ' ', 'p', 'r', 'i', 'n', 't', '(', 'i', ')']).length) 1 none (decimalChars b) ([')', ':', ' ', 'p', 'r', 'i', 'n', 't', '(', 'i', ')'])
    (decimalChars_ne_nil b) (decimalChars_digits b)
    (fun c cs h => by cases h; exact ⟨by decide, by decide⟩)]
  rw [natOfDigits_decimalChars]
  rw [tokNorm_norm ((decimalChars b ++ [')', ':', ' ', 'p', 'r', 'i', 'n', 't', '(', 'i', ')']).length) ([')', ':', ' ', 'p', 'r', 'i', 'n', 't', '(', 'i', ')']) 1 none (by simp [List.length_append, List.length_pos, decimalChars_ne_nil])]
  simp only [tokNorm]
  rw [show (([')', ':', ' ', 'p', 'r', 'i', 'n', 't', '(', 'i', ')'] : List Char).length + 1) = 12 from rfl]
  rw [show tokenizeAux 12 ([')', ':', ' ', 'p', 'r', 'i', 'n', 't', '(', 'i', ')']) 1 none = tokNorm ([')', ':', ' ', 'p', 'r', 'i', 'n', 't', '(', 'i', ')']) 1 none from rfl]
  rw [hTail]
  rfl

/-- The AST of the C2 program: one `For` over `range(a, b)` printing
the iterator. -/
def forAst (a b : Nat) : Node :=
  .block [.forNode "i" (.number (.int (a : Int))) (.number (.int (b : Int)))
    (.printNode (.varNode "i"))]

/-- Parsing the C2 token stream (at the runner's fuel) always succeeds
with the `For` AST, whatever the two numeric token values are. -/
theorem parse_forToks (a b : Nat) :
    parseProgram (5 * (forToks a b).length + 10) (forToks a b) = some (forAst a b) := rfl

/-- Concatenation of a list of output fragments. -/
def concatOut : List String → String
  | [] => ""
  | s :: rest => s ++ concatOut rest

/-- The `for`-iteration fold of `evaluate_ast` on a `print(i)` body:
it rebinds `i` to each range value in turn and appends one decimal
line per value. -/
theorem forPrint_fold (g : Nat) (is : List Int) (st : InterpState) :
    List.foldlM
        (fun st3 i =>
          match evaluate_ast (g + 2) (.printNode (.varNode "i"))
              { st3 with vars := setVar st3.vars "i" (.int i) } with
          | .error e2 => Except.error e2
          | .ok q => Except.ok q.2)
        st is =
      .ok (⟨is.foldl (fun env i => setVar env "i" (.int i)) st.vars,
           st.output_buffer ++ concatOut (is.map (fun i => Int.repr i ++ "\n"))⟩ :
            InterpState) := by
  induction is generalizing st with
  | nil => simp [concatOut, pure, Except.pure]
  | cons i rest ih =>
    have e1 : (g + 2 : Nat) = (g + 1) + 1 := rfl
    have hpr : evaluate_ast (g + 2) (.printNode (.varNode "i"))
        { st with vars := setVar st.vars "i" (.int i) } =
        .ok (.noneV, ⟨setVar st.vars "i" (.int i),
          st.output_buffer ++ Int.repr i ++ "\n"⟩) := by
      rw [e1]
      simp [evaluate_ast, lookupVar_setVar_self, pyStr, pyRepr]
    simp only [List.foldlM_cons, hpr]
    have h2 := ih ⟨setVar st.vars "i" (.int i),
      st.output_buffer ++ Int.repr i ++ "\n"⟩
    simp only [List.foldl_cons, List.map_cons, concatOut]
    dsimp only at h2
    rw [← String.append_assoc, ← String.append_assoc]
    exact h2

/-- A one-statement `Block` evaluates its statement and returns `None`
with that statement's final state. -/
theorem eval_block_single (f : Nat) (n : Node) (st st2 : InterpState) (v : Value)
    (h : evaluate_ast f n st = .ok (v, st2)) :
    evaluate_ast (f + 1) (.block [n]) st = .ok (.noneV, st2) := by
  simp [evaluate_ast, h, pure, Except.pure, bind, Except.bind]

/-- Evaluating the C2 `For` node from the empty state: the iterator is
rebound to each element of `range(a, b)` and one decimal line is
printed per element. -/
theorem eval_forNode_print (g a b : Nat) :
    evaluate_ast (g + 3)
      (.forNode "i" (.number (.int (a : Int))) (.number (.int (b : Int)))
        (.printNode (.varNode "i"))) ⟨[], ""⟩ =
      .ok (.noneV,
        ⟨(pyRange a b).foldl (fun env i => setVar env "i" (.int i)) [],
         concatOut ((pyRange a b).map (fun i => Int.repr i ++ "\n"))⟩) := by
  have h1 : evaluate_ast ((g + 2) + 1)
      (.forNode "i" (.number (.int (a : Int))) (.number (.int (b : Int)))
        (.printNode (.varNode "i"))) ⟨[], ""⟩ =
      (match List.foldlM
          (fun st3 i =>
            match evaluate_ast (g + 2) (.printNode (.varNode "i"))
                { st3 with vars := setVar st3.vars "i" (.int i) } with
            | .error e2 => Except.error e2
            | .ok q => Except.ok q.2)
          (⟨[], ""⟩ : InterpState) (pyRange (a : Int) (b : Int)) with
       | Except.error e2 => Except.error e2
       | Except.ok st3 => Except.ok (Value.noneV, st3)) := rfl
  rw [show (g + 3 : Nat) = (g + 2) + 1 from rfl, h1,
    forPrint_fold g (pyRange (a : Int) (b : Int)) ⟨[], ""⟩]
  rfl

theorem eval_forAst (g a b : Nat) :
    evaluate_ast (g + 4) (forAst a b) ⟨[], ""⟩ =
      .ok (.noneV,
        ⟨(pyRange a b).foldl (fun env i => setVar env "i" (.int i)) [],
         concatOut ((pyRange a b).map (fun i => Int.repr i ++ "\n"))⟩) :=
  eval_block_single (g + 3) _ _ _ _ (eval_forNode_print g a b)

theorem list_coe_int (l : List Nat) :
    (l >>= fun a => pure ((a : Int))) = l.map (fun (x : Nat) => (x : Int)) := by
  induction l with
  | nil => rfl
  | cons x xs ih =>
    rw [show ((x :: xs : List Nat) >>= fun a => pure ((a : Int))) =
        ([(x : Int)] ++ (xs >>= fun a => pure ((a : Int)))) from rfl, ih]
    rfl

theorem pyRange_cast (a b : Nat) :
    pyRange (a : Int) (b : Int) =
      (List.range (b - a)).map (fun (j : Nat) => ((a : Int) + j)) := by
  have h : ((b : Int) - (a : Int)).toNat = b - a := Int.toNat_sub b a
  rw [pyRange, h, list_coe_int, List.map_map]
  rfl

/-- C2 (amended to nonnegative bounds): for all natural numbers `a` and `b`,
running `for i in range(a,b): print(i)` finishes with the iterator
successively bound to each element of the half-open range `[a, b)` — which
has exactly `b - a` (that is, `max (0, b-a)`) elements, the `j`-th being
`a + j` — and with the output buffer the concatenation of the decimal text
of each element followed by a newline.  The original claim's "all integers"
fails: the grammar has no negative literals (see the counterexample). -/
theorem c2_for_range_output (a b : Nat) :
    run_program 10 (progFor a b) =
      .finished ⟨(pyRange a b).foldl (fun env i => setVar env "i" (.int i)) [],
        concatOut ((pyRange a b).map (fun i => Int.repr i ++ "\n"))⟩ ∧
    pyRange (a : Int) (b : Int) =
      (List.range (b - a)).map (fun (j : Nat) => ((a : Int) + j)) ∧
    (pyRange (a : Int) (b : Int)).length = b - a := by
  refine ⟨?_, pyRange_cast a b, by rw [pyRange_cast a b, List.length_map, List.length_range]⟩
  have he : evaluate_ast 10 (forAst a b) ⟨[], ""⟩ =
      .ok (.noneV,
        ⟨(pyRange a b).foldl (fun env i => setVar env "i" (.int i)) [],
         concatOut ((pyRange a b).map (fun i => Int.repr i ++ "\n"))⟩) :=
    eval_forAst 6 a b
  simp only [run_program]
  rw [tokenize_progFor]
  dsimp only
  rw [parse_forToks a b]
  dsimp only
  rw [he]

/-- Counterexample to C2 as stated for all integers: `range(-1,1)` is not
even parseable, because the grammar has no unary minus, so the program
yields a syntax error rather than printing `-1` and `0`. -/
theorem c2_counterexample_negative_bound :
    run_program 10 "for i in range(-1,1): print(i)" = .parseError := rfl

end PlyInterp
